import Mathlib

/-!
The sqlrun.nvim SSH tunnel: endpoint parsing and per-connection forwarding.

A shallow embedding of `src/ssh_tunnel.go` and `src/ssh_tunnel/sshTunnel.go`.

* A Go `string` is a finite sequence of bytes: `GoString := List UInt8`.
* A Go `int` is an `Int` kept inside `[-2^(intSize-1), 2^(intSize-1))`; `intSize` is
  `strconv.IntSize` (32 or 64, fixed by the platform) and is a parameter of every function
  that depends on it.
* The standard-library functions the two files call (`strings.Split`, `strconv.Atoi`,
  `fmt.Sprintf` with `%s` and `%d`) are embedded from the Go standard library's code.
* `NewEndpoint`, `String` and `NewSSHTunnel` have the same body in both files and are embedded
  once. `createSshConfig`, `forward` and `copyConn` differ and are embedded once per file,
  under `SSHTunnel` for `src/ssh_tunnel.go` and under `sshTunnel` for
  `src/ssh_tunnel/sshTunnel.go`, as functions from the answers of the outside world to the
  actions performed.
-/

namespace SqlRun

/-- A Go string: a sequence of bytes. -/
abbrev GoString := List UInt8

/-- The bytes of a string literal (UTF-8; one byte per character for ASCII literals). -/
def str (s : String) : GoString := s.data.flatMap String.utf8EncodeChar

/-! ## `strings` -/

/-- `strings.IndexByte(s, c)`: the index of the first `c` in `s`, `none` for Go's `-1`. -/
def IndexByte : GoString → UInt8 → Option Nat
  | [], _ => none
  | b :: rest, c => if b = c then some 0 else (IndexByte rest c).map (· + 1)

/-- `strings.Count(s, sep)` for a one-byte separator. -/
def Count (s : GoString) (sep : UInt8) : Nat := s.count sep

/-- The loop of `strings.genSplit(s, sep, 0, n)` with `k = n - 1` iterations left:
`m := Index(s, sep); if m < 0 { break }; a[i] = s[:m]; s = s[m+len(sep):]`, and after the
loop `a[i] = s`. -/
def genSplit (sep : UInt8) : Nat → GoString → List GoString
  | 0, s => [s]
  | k + 1, s =>
    match IndexByte s sep with
    | none => [s]
    | some m => s.take m :: genSplit sep k (s.drop (m + 1))

/-- `strings.Split(s, sep)` for the one-byte separators the program uses (`"@"` and `":"`):
`genSplit(s, sep, 0, -1)`, where `n = Count(s, sep) + 1`. -/
def Split (s : GoString) (sep : UInt8) : List GoString := genSplit sep (Count s sep) s

/-! ## `strconv` -/

/-- The `Err` of a `*strconv.NumError`. -/
inductive NumError
  | ErrSyntax
  | ErrRange
  deriving DecidableEq, Repr

/-- Reduction of a mathematical integer to a two's-complement integer of `w` bits. -/
def wrapInt (w : Nat) (z : Int) : Int := (z + 2 ^ (w - 1)) % 2 ^ w - 2 ^ (w - 1)

/-- `strconv.lower(c)`: `c | ('x' - 'X')`. -/
def lower (c : UInt8) : UInt8 := c ||| 0x20

/-- The digit loop of `strconv.ParseUint(s, 10, bitSize)`; `n` is the `uint64` accumulator. -/
def parseUintLoop (maxVal : Nat) : GoString → Nat → Nat × Option NumError
  | [], n => (n, none)
  | c :: rest, n =>
    let d? : Option Nat :=
      if 48 ≤ c.toNat ∧ c.toNat ≤ 57 then some (c.toNat - 48)
      else if 97 ≤ (lower c).toNat ∧ (lower c).toNat ≤ 122 then some ((lower c).toNat - 97 + 10)
      else none
    match d? with
    | none => (0, some .ErrSyntax)
    | some d =>
      if d ≥ 10 then (0, some .ErrSyntax)
      -- cutoff = maxUint64/10 + 1
      else if n ≥ (2 ^ 64 - 1) / 10 + 1 then (maxVal, some .ErrRange)
      else
        let n10 := n * 10 % 2 ^ 64
        let n1 := (n10 + d) % 2 ^ 64
        if n1 < n10 ∨ n1 > maxVal then (maxVal, some .ErrRange)
        else parseUintLoop maxVal rest n1

/-- `strconv.ParseUint(s, 10, 0)`: `bitSize` 0 means `IntSize`;
`maxVal := uint64(1)<<uint(bitSize) - 1` in `uint64` arithmetic. -/
def ParseUint (intSize : Nat) (s : GoString) : Nat × Option NumError :=
  if s = [] then (0, some .ErrSyntax)
  else parseUintLoop ((2 ^ intSize % 2 ^ 64 + 2 ^ 64 - 1) % 2 ^ 64) s 0

/-- `strconv.ParseInt(s, 10, 0)`; the result is an `int64`. -/
def ParseInt (intSize : Nat) (s : GoString) : Int × Option NumError :=
  match s with
  | [] => (0, some .ErrSyntax)
  | c :: rest =>
    let neg : Bool := c = 45
    let body : GoString := if c = 43 ∨ c = 45 then rest else s
    match ParseUint intSize body with
    | (_, some .ErrSyntax) => (0, some .ErrSyntax)
    | (un, _) =>
      let cutoff : Nat := 2 ^ (intSize - 1)
      if !neg ∧ un ≥ cutoff then ((cutoff : Int) - 1, some .ErrRange)
      else if neg ∧ un > cutoff then (-(cutoff : Int), some .ErrRange)
      else
        let n : Int := wrapInt 64 un
        (if neg then wrapInt 64 (-n) else n, none)

/-- The digit loop of the fast path of `strconv.Atoi`:
`ch -= '0'; if ch > 9 { return 0, syntaxError }; n = n*10 + int(ch)`, with byte arithmetic
for `ch`. `none` is the syntax error. -/
def atoiLoop : GoString → Int → Option Int
  | [], n => some n
  | c :: rest, n =>
    let ch : Nat := (c.toNat + 256 - 48) % 256
    if ch > 9 then none else atoiLoop rest (n * 10 + ch)

/-- The fast path of `strconv.Atoi` once the sign is looked at: the digit loop over `s`, then
`if s0[0] == '-' { n = -n }`. In this path `s` has at most 18 bytes (9 when `int` has 32
bits), so `n` stays below `10^18` (`10^9`) and the `int` arithmetic does not overflow
(`atoiLoop_bound`). -/
def atoiFast (s0 s : GoString) : Int × Option NumError :=
  match atoiLoop s 0 with
  | none => (0, some .ErrSyntax)
  | some n => (if s0.head? = some 45 then -n else n, none)

/-- `strconv.Atoi(s)`: the value and the error. -/
def Atoi (intSize : Nat) (s : GoString) : Int × Option NumError :=
  let sLen := s.length
  if (intSize = 32 ∧ 0 < sLen ∧ sLen < 10) ∨ (intSize = 64 ∧ 0 < sLen ∧ sLen < 19) then
    -- Fast path for small integers that fit the `int` type.
    match s with
    | [] => (0, some .ErrSyntax)
    | c :: rest =>
      if c = 45 ∨ c = 43 then
        if rest.length < 1 then (0, some .ErrSyntax) else atoiFast s rest
      else atoiFast s s
  else
    -- Slow path for invalid, big, or underscored integers.
    let r := ParseInt intSize s
    (wrapInt intSize r.1, r.2)

/-! ## `fmt` -/

/-- The digit loop of `fmt.(*fmt).fmtInteger` for base 10:
`for u >= 10 { next := u / 10; buf[i] = byte('0' + u - next*10); u = next }`, then
`buf[i] = byte('0' + u)`; the buffer is filled from the right. The first argument bounds the
number of iterations. -/
def decimalLoop : Nat → Nat → GoString
  | 0, u => [UInt8.ofNat (48 + u)]
  | fuel + 1, u =>
    if u < 10 then [UInt8.ofNat (48 + u)]
    else decimalLoop fuel (u / 10) ++ [UInt8.ofNat (48 + (u - u / 10 * 10))]

/-- The decimal digits of `u`; `u` iterations are always enough (`decimal_eq`). -/
def decimal (u : Nat) : GoString := decimalLoop u u

/-- The verb `%d` applied to an `int`: `fmtInteger(uint64(v), 10, signed, ...)`, that is
`negative := int64(u) < 0; if negative { u = -u }` in `uint64` arithmetic, then the digits
with a leading `-` when negative. -/
def fmtInteger (v : Int) : GoString :=
  let u : Nat := (v % 2 ^ 64).toNat
  let negative : Bool := wrapInt 64 u < 0
  let u : Nat := if negative then (2 ^ 64 - u) % 2 ^ 64 else u
  if negative then 45 :: decimal u else decimal u

/-! ## The program -/

/-- The struct `Endpoint` (`endpoint` in `src/ssh_tunnel/sshTunnel.go`). -/
structure Endpoint where
  Host : GoString
  Port : Int
  User : GoString
  deriving DecidableEq, Repr

/-- `NewEndpoint(s)`, identical in both files (`src/ssh_tunnel.go:28-41`,
`src/ssh_tunnel/sshTunnel.go:29-42`). The byte 64 is `@` and the byte 58 is `:`; a `match` on
`p0 :: p1 :: _` is the test `len(parts) > 1` with `parts[0]` and `parts[1]`. -/
def NewEndpoint (intSize : Nat) (s : GoString) : Endpoint :=
  let endpoint : Endpoint := { Host := s, Port := 0, User := [] }
  -- if parts := strings.Split(endpoint.Host, "@"); len(parts) > 1
  let endpoint : Endpoint :=
    match Split endpoint.Host 64 with
    | p0 :: p1 :: _ => { endpoint with User := p0, Host := p1 }
    | _ => endpoint
  -- if parts := strings.Split(endpoint.Host, ":"); len(parts) > 1
  let endpoint : Endpoint :=
    match Split endpoint.Host 58 with
    | p0 :: p1 :: _ => { endpoint with Host := p0, Port := (Atoi intSize p1).1 }
    | _ => endpoint
  endpoint

/-- `(*Endpoint).String()`: `fmt.Sprintf("%s:%d", endpoint.Host, endpoint.Port)`. -/
def Endpoint.String (endpoint : Endpoint) : GoString :=
  endpoint.Host ++ str ":" ++ fmtInteger endpoint.Port

/-- The struct `SSHTunnel` (`sshTunnel` in `src/ssh_tunnel/sshTunnel.go`); `Log` tells
whether the `*log.Logger` is non-nil. -/
structure SSHTunnel where
  Local : Endpoint
  Server : Endpoint
  Remote : Endpoint
  Log : Bool
  deriving DecidableEq, Repr

/-- `NewSSHTunnel(tunnel, destination, localPort)`, identical in both files
(`src/ssh_tunnel.go:147-160`, `src/ssh_tunnel/sshTunnel.go:55-68`). -/
def NewSSHTunnel (intSize : Nat) (tunnel destination : GoString) (localPort : Int) : SSHTunnel :=
  let localEndpoint := NewEndpoint intSize (str "localhost:" ++ fmtInteger localPort)
  let server := NewEndpoint intSize tunnel
  let server : Endpoint := if server.Port = 0 then { server with Port := 22 } else server
  { Local := localEndpoint, Server := server, Remote := NewEndpoint intSize destination,
    Log := false }

/-! ## Per-connection forwarding

`forward` and the functions it calls act on the outside world. Each is embedded as a function
from the answers of the outside world (`Env`) to the list of actions it performs, in program
order, and the way it ends. -/

/-- The connections of one Forwarder session. -/
inductive Conn
  | localConn
  | serverConn
  | remoteConn
  deriving DecidableEq, Repr

/-- An action of the process that the outside world can observe. -/
inductive Event
  /-- A `Printf` on the tunnel's logger: one entry of the log sink. -/
  | Printf (format : String) (args : List GoString)
  /-- An entry written by the standard logger of package `log`. -/
  | Stderr (format : String) (args : List GoString)
  /-- A dial: `net.Dial`, `ssh.Dial` or `(*ssh.Client).Dial`. -/
  | Dial (network : String) (addr : GoString)
  /-- The statement `go copyConn(writer, reader)`. -/
  | Go (writer reader : Conn)
  /-- The call `io.Copy(writer, reader)`. -/
  | Copy (writer reader : Conn)
  /-- The call `Close()` on a connection. -/
  | Close (c : Conn)
  /-- The call `os.Exit(code)`. -/
  | Exit (code : Int)
  /-- A run-time panic that nothing recovers. -/
  | Panic
  deriving DecidableEq, Repr

/-- How a function ends: it returns, or the whole process ends under it. -/
inductive Outcome (α : Type)
  | returned (a : α)
  | terminated
  deriving DecidableEq, Repr

/-- The actions of a function, in order, and how it ends. -/
abbrev Run (α : Type) := List Event × Outcome α

/-- Sequencing: nothing runs after the process has ended. -/
def Run.bind {α β : Type} (x : Run α) (f : α → Run β) : Run β :=
  match x with
  | (evs, .returned a) => (evs ++ (f a).1, (f a).2)
  | (evs, .terminated) => (evs, .terminated)

instance : Monad Run where
  pure a := ([], .returned a)
  bind := Run.bind

/-- One action. -/
def emit (e : Event) : Run Unit := ([e], .returned ())

/-- The answers of the outside world to the calls of one Forwarder session: for each call
the error it returns, `none` when it succeeds. -/
structure Env where
  /-- The error of `user.Current()`. -/
  userCurrent : Option GoString
  /-- The error of `knownhosts.New(...)`. -/
  knownhostsNew : Option GoString
  /-- The value of `os.Getenv("SSH_AUTH_SOCK")`. -/
  authSock : GoString
  /-- The error of `net.Dial("unix", socket)`. -/
  agentDial : Option GoString
  /-- The error of `ssh.Dial("tcp", tunnel.Server.String(), ...)`. -/
  sshDial : Option GoString
  /-- The error of `serverConn.Dial("tcp", tunnel.Remote.String())`. -/
  remoteDial : Option GoString
  deriving DecidableEq, Repr

/-- `log.Fatal` and `log.Fatalf` of the standard logger: the entry, then `os.Exit(1)`. -/
def stdFatalf {α : Type} (format : String) (args : List GoString) : Run α :=
  ([.Stderr format args, .Exit 1], .terminated)

/-- `(*log.Logger).Printf` on `tunnel.Log`; a nil logger is dereferenced. -/
def Logger.Printf (log : Bool) (format : String) (args : List GoString) : Run Unit :=
  if log then emit (.Printf format args) else ([.Panic], .terminated)

/-- `(*log.Logger).Fatalf` on `tunnel.Log`: `Printf`, then `os.Exit(1)`. -/
def Logger.Fatalf {α : Type} (log : Bool) (format : String) (args : List GoString) : Run α :=
  if log then ([.Printf format args, .Exit 1], .terminated) else ([.Panic], .terminated)

/-! ### `src/ssh_tunnel.go` -/

/-- `(*SSHTunnel).logf`: prints only when `tunnel.Log != nil`. -/
def SSHTunnel.logf (tunnel : SSHTunnel) (format : String) (args : List GoString) : Run Unit :=
  if tunnel.Log then Logger.Printf tunnel.Log format args else pure ()

/-- `(*SSHTunnel).createSshConfig` (`src/ssh_tunnel.go:60-86`); the configuration it returns
carries nothing the embedding observes. -/
def SSHTunnel.createSshConfig (_tunnel : SSHTunnel) (env : Env) : Run Unit := do
  match env.userCurrent with
  | some err => stdFatalf "%v" [err]
  | none =>
    match env.knownhostsNew with
    | some err => stdFatalf "%v" [err]
    | none =>
      emit (.Dial "unix" env.authSock)
      match env.agentDial with
      | some err => stdFatalf "Failed to open SSH_AUTH_SOCK: %v" [err]
      | none => pure ()

/-- `(*SSHTunnel).forward` (`src/ssh_tunnel.go:105-126`). -/
def SSHTunnel.forward (tunnel : SSHTunnel) (env : Env) : Run Unit := do
  SSHTunnel.createSshConfig tunnel env
  emit (.Dial "tcp" tunnel.Server.String)
  match env.sshDial with
  | some err => SSHTunnel.logf tunnel "server dial error: %s" [err]
  | none =>
    SSHTunnel.logf tunnel "connected to %s (1 of 2)\n" [tunnel.Server.String]
    emit (.Dial "tcp" tunnel.Remote.String)
    match env.remoteDial with
    | some err => SSHTunnel.logf tunnel "remote dial error: %s" [err]
    | none =>
      SSHTunnel.logf tunnel "connected to %s (2 of 2)\n" [tunnel.Remote.String]
      emit (.Go .localConn .remoteConn)
      emit (.Go .remoteConn .localConn)

/-- The closure `copyConn` of `(*SSHTunnel).forward` (`src/ssh_tunnel.go:118-123`);
`copyErr` is the error `io.Copy` returns. -/
def SSHTunnel.copyConn (tunnel : SSHTunnel) (writer reader : Conn) (copyErr : Option GoString) :
    Run Unit := do
  emit (.Copy writer reader)
  match copyErr with
  | some err => SSHTunnel.logf tunnel "io.Copy error: %s" [err]
  | none => pure ()

/-! ### `src/ssh_tunnel/sshTunnel.go` -/

/-- The struct `sshTunnel` has the fields of `SSHTunnel`. -/
abbrev sshTunnel := SSHTunnel

/-- `(*sshTunnel).createSshConfig` (`src/ssh_tunnel/sshTunnel.go:70-96`). -/
def sshTunnel.createSshConfig (tunnel : sshTunnel) (env : Env) : Run Unit := do
  match env.userCurrent with
  | some err => Logger.Fatalf tunnel.Log "Cannot get current user: %s" [err]
  | none =>
    match env.knownhostsNew with
    | some err => Logger.Fatalf tunnel.Log "Cannot get known hosts: %s" [err]
    | none =>
      emit (.Dial "unix" env.authSock)
      match env.agentDial with
      | some err => Logger.Fatalf tunnel.Log "Failed to open SSH_AUTH_SOCK: %v" [err]
      | none => pure ()

/-- `(*sshTunnel).forward` (`src/ssh_tunnel/sshTunnel.go:115-134`). -/
def sshTunnel.forward (tunnel : sshTunnel) (env : Env) : Run Unit := do
  sshTunnel.createSshConfig tunnel env
  emit (.Dial "tcp" tunnel.Server.String)
  match env.sshDial with
  | some err => Logger.Fatalf tunnel.Log "server dial error: %s" [err]
  | none =>
    Logger.Printf tunnel.Log "connected to %s (1 of 2)\n" [tunnel.Server.String]
    emit (.Dial "tcp" tunnel.Remote.String)
    match env.remoteDial with
    | some err => Logger.Fatalf tunnel.Log "remote dial error: %s" [err]
    | none =>
      Logger.Printf tunnel.Log "connected to %s (2 of 2)\n" [tunnel.Remote.String]
      emit (.Go .localConn .remoteConn)
      emit (.Go .remoteConn .localConn)

/-- The closure `copyConn` of `(*sshTunnel).forward` (`src/ssh_tunnel/sshTunnel.go:126-131`);
`copyErr` is the error `io.Copy` returns. -/
def sshTunnel.copyConn (tunnel : sshTunnel) (writer reader : Conn) (copyErr : Option GoString) :
    Run Unit := do
  emit (.Copy writer reader)
  match copyErr with
  | some err => Logger.Fatalf tunnel.Log "io.Copy error: %s" [err]
  | none => pure ()

/-! ## Lemmas on `strings.Split` -/

theorem str_at : str "@" = [64] := rfl

theorem str_colon : str ":" = [58] := rfl

theorem IndexByte_of_not_mem (sep : UInt8) (s : GoString) (h : sep ∉ s) :
    IndexByte s sep = none := by
  induction s with
  | nil => rfl
  | cons b rest ih =>
    have hb : b ≠ sep := fun e => h (by simp [e])
    have hr : sep ∉ rest := fun e => h (by simp [e])
    simp [IndexByte, hb, ih hr]

theorem IndexByte_append (sep : UInt8) (a b : GoString) (h : sep ∉ a) :
    IndexByte (a ++ sep :: b) sep = some a.length := by
  induction a with
  | nil => simp [IndexByte]
  | cons c rest ih =>
    have hc : c ≠ sep := fun e => h (by simp [e])
    have hr : sep ∉ rest := fun e => h (by simp [e])
    simp [IndexByte, hc, ih hr]

theorem Split_of_not_mem (sep : UInt8) (s : GoString) (h : sep ∉ s) : Split s sep = [s] := by
  have hc : Count s sep = 0 := by simpa [Count, List.count_eq_zero] using h
  simp [Split, hc, genSplit]

theorem Split_append (sep : UInt8) (a b : GoString) (h : sep ∉ a) :
    Split (a ++ sep :: b) sep = a :: Split b sep := by
  have hc : Count (a ++ sep :: b) sep = Count b sep + 1 := by
    have : List.count sep a = 0 := by simpa [List.count_eq_zero] using h
    simp [Count, List.count_append, this]
  simp [Split, hc, genSplit, IndexByte_append sep a b h]

/-! ## Lemmas on `%d` -/

theorem digit_toNat (d : Nat) (h : d < 10) : (UInt8.ofNat (48 + d)).toNat = 48 + d :=
  UInt8.toNat_ofNat_of_lt (by simp [UInt8.size]; omega)

theorem decimalLoop_fuel (f g u : Nat) (hf : u ≤ f) (hg : u ≤ g) :
    decimalLoop f u = decimalLoop g u := by
  induction f generalizing g u with
  | zero =>
    obtain rfl : u = 0 := by omega
    cases g <;> simp [decimalLoop]
  | succ f ih =>
    cases g with
    | zero =>
      obtain rfl : u = 0 := by omega
      simp [decimalLoop]
    | succ g =>
      simp only [decimalLoop]
      split
      · rfl
      · rw [ih g (u / 10) (by omega) (by omega)]

/-- The recursion `decimal` obeys: `u` units of fuel are enough. -/
theorem decimal_eq (u : Nat) :
    decimal u = if u < 10 then [UInt8.ofNat (48 + u)]
      else decimal (u / 10) ++ [UInt8.ofNat (48 + u % 10)] := by
  unfold decimal
  cases u with
  | zero => simp [decimalLoop]
  | succ k =>
    simp only [decimalLoop]
    split
    · rfl
    · rw [decimalLoop_fuel k ((k + 1) / 10) ((k + 1) / 10) (by omega) (le_refl _)]
      congr 3
      omega

theorem decimal_digits (u : Nat) : ∀ b ∈ decimal u, 48 ≤ b.toNat ∧ b.toNat ≤ 57 := by
  induction u using Nat.strong_induction_on with
  | _ u ih =>
    intro b hb
    rw [decimal_eq] at hb
    split at hb
    · simp only [List.mem_singleton] at hb
      subst hb
      rw [digit_toNat u (by omega)]
      omega
    · rcases List.mem_append.mp hb with h | h
      · exact ih (u / 10) (by omega) b h
      · simp only [List.mem_singleton] at h
        subst h
        rw [digit_toNat (u % 10) (by omega)]
        omega

theorem decimal_ne_nil (u : Nat) : decimal u ≠ [] := by
  rw [decimal_eq]
  split <;> simp

/-! ## Lemmas on `strconv.Atoi` -/

theorem toNat_lt (c : UInt8) : c.toNat < 256 := c.toBitVec.isLt

theorem atoiLoop_append (a b : GoString) (n : Int) :
    atoiLoop (a ++ b) n = (atoiLoop a n).bind (atoiLoop b) := by
  induction a generalizing n with
  | nil => rfl
  | cons c a ih =>
    simp only [List.cons_append, atoiLoop]
    split
    · rfl
    · exact ih _

theorem atoiLoop_digit (c : UInt8) (rest : GoString) (n : Int)
    (h : 48 ≤ c.toNat ∧ c.toNat ≤ 57) :
    atoiLoop (c :: rest) n = atoiLoop rest (n * 10 + (c.toNat - 48 : Nat)) := by
  have e : (c.toNat + 256 - 48) % 256 = c.toNat - 48 := by omega
  simp only [atoiLoop, e]
  rw [if_neg (by omega)]

theorem atoiLoop_nondigit (c : UInt8) (rest : GoString) (n : Int)
    (h : ¬ (48 ≤ c.toNat ∧ c.toNat ≤ 57)) : atoiLoop (c :: rest) n = none := by
  have := toNat_lt c
  simp only [atoiLoop]
  rw [if_pos (by omega)]

/-- The accumulator of the fast path stays below `10 ^ len(s)`: with at most 18 digits (9 for
a 32-bit `int`) the `int` arithmetic of the loop does not overflow. -/
theorem atoiLoop_bound (s : GoString) (n0 n : Int) (h0 : 0 ≤ n0) (h : atoiLoop s n0 = some n) :
    0 ≤ n ∧ n < (n0 + 1) * 10 ^ s.length := by
  induction s generalizing n0 with
  | nil =>
    simp only [atoiLoop, Option.some.injEq] at h
    subst h
    simp [h0]
  | cons c s ih =>
    have hc := toNat_lt c
    simp only [atoiLoop] at h
    split at h
    · exact absurd h (by simp)
    · rename_i hch
      obtain ⟨h1, h2⟩ := ih _ (by omega) h
      refine ⟨h1, lt_of_lt_of_le h2 ?_⟩
      have hp : (0 : Int) ≤ 10 ^ s.length := by positivity
      rw [List.length_cons, pow_succ]
      have : n0 * 10 + ((c.toNat + 256 - 48) % 256 : Nat) + 1 ≤ (n0 + 1) * 10 := by omega
      calc (n0 * 10 + ((c.toNat + 256 - 48) % 256 : Nat) + 1) * 10 ^ s.length
          ≤ ((n0 + 1) * 10) * 10 ^ s.length := mul_le_mul_of_nonneg_right this hp
        _ = (n0 + 1) * (10 ^ s.length * 10) := by ring

theorem atoiLoop_decimal (u : Nat) : atoiLoop (decimal u) 0 = some (u : Int) := by
  induction u using Nat.strong_induction_on with
  | _ u ih =>
    rw [decimal_eq]
    split
    · rw [atoiLoop_digit _ _ _ (by rw [digit_toNat u (by omega)]; omega), digit_toNat u (by omega)]
      simp [atoiLoop]
    · rw [atoiLoop_append, ih (u / 10) (by omega)]
      simp only [Option.some_bind]
      rw [atoiLoop_digit _ _ _ (by rw [digit_toNat (u % 10) (by omega)]; omega),
        digit_toNat (u % 10) (by omega)]
      simp only [atoiLoop, Option.some.injEq]
      omega

theorem parseUintLoop_digit (M : Nat) (c : UInt8) (rest : GoString) (n : Nat)
    (h : 48 ≤ c.toNat ∧ c.toNat ≤ 57) (hM : M < 2 ^ 64) (hn : n * 10 + (c.toNat - 48) ≤ M) :
    parseUintLoop M (c :: rest) n = parseUintLoop M rest (n * 10 + (c.toNat - 48)) := by
  norm_num at hM
  simp only [parseUintLoop, if_pos h]
  norm_num
  rw [if_neg (by omega), if_neg (by omega), if_neg (by omega)]
  congr 1
  omega

theorem parseUintLoop_nondigit (M : Nat) (c : UInt8) (rest : GoString) (n : Nat)
    (h : ¬ (48 ≤ c.toNat ∧ c.toNat ≤ 57)) :
    parseUintLoop M (c :: rest) n = (0, some .ErrSyntax) := by
  simp only [parseUintLoop, if_neg h]
  split
  · rfl
  · rename_i d hd
    split at hd
    · simp only [Option.some.injEq] at hd
      rw [if_pos (by omega)]
    · exact absurd hd (by simp)

theorem parseUintLoop_decimal (M : Nat) (hM : M < 2 ^ 64) (u : Nat) (hu : u ≤ M)
    (rest : GoString) : parseUintLoop M (decimal u ++ rest) 0 = parseUintLoop M rest u := by
  induction u using Nat.strong_induction_on generalizing rest with
  | _ u ih =>
    rw [decimal_eq]
    split
    · have hd := digit_toNat u (by omega)
      rw [List.singleton_append, parseUintLoop_digit M _ _ _ (by omega) hM (by omega), hd]
      congr 1
      omega
    · have hd := digit_toNat (u % 10) (by omega)
      rw [List.append_assoc, List.singleton_append, ih (u / 10) (by omega) (by omega),
        parseUintLoop_digit M _ _ _ (by omega) hM (by omega), hd]
      congr 1
      omega

theorem maxVal_eq (w : Nat) (hw : w = 32 ∨ w = 64) :
    (2 ^ w % 2 ^ 64 + 2 ^ 64 - 1) % 2 ^ 64 = 2 ^ w - 1 := by
  rcases hw with rfl | rfl <;> norm_num

theorem ParseUint_decimal (w : Nat) (hw : w = 32 ∨ w = 64) (u : Nat) (hu : u < 2 ^ w) :
    ParseUint w (decimal u) = (u, none) := by
  have hM : 2 ^ w - 1 < 2 ^ 64 := by rcases hw with rfl | rfl <;> norm_num
  have h := parseUintLoop_decimal (2 ^ w - 1) hM u (by omega) []
  rw [List.append_nil] at h
  rw [ParseUint, if_neg (decimal_ne_nil u), maxVal_eq w hw, h]
  rfl

theorem decimal_head (u : Nat) :
    ∃ c rest, decimal u = c :: rest ∧ 48 ≤ c.toNat ∧ c.toNat ≤ 57 := by
  have h := decimal_digits u
  cases hd : decimal u with
  | nil => exact absurd hd (decimal_ne_nil u)
  | cons c rest => exact ⟨c, rest, rfl, h c (by simp [hd])⟩

theorem ne_of_toNat_ne (c : UInt8) (k : UInt8) (h : c.toNat ≠ k.toNat) : c ≠ k :=
  fun e => h (by rw [e])

theorem wrapInt_id (w : Nat) (hw : w = 32 ∨ w = 64) (z : Int)
    (hz : -(2 : Int) ^ (w - 1) ≤ z ∧ z < 2 ^ (w - 1)) : wrapInt w z = z := by
  unfold wrapInt
  rcases hw with rfl | rfl <;> norm_num at hz ⊢ <;> omega

/-- `Atoi` reads back the digits of a non-negative `int`. -/
theorem Atoi_decimal (w : Nat) (hw : w = 32 ∨ w = 64) (u : Nat) (hu : u < 2 ^ (w - 1)) :
    Atoi w (decimal u) = ((u : Int), none) := by
  obtain ⟨c, rest, hc, hdig⟩ := decimal_head u
  have h45 : c ≠ 45 := ne_of_toNat_ne c 45 (by show c.toNat ≠ 45; omega)
  have h43 : c ≠ 43 := ne_of_toNat_ne c 43 (by show c.toNat ≠ 43; omega)
  have hlt : u < 2 ^ w := by rcases hw with rfl | rfl <;> norm_num at hu ⊢ <;> omega
  have hloop := atoiLoop_decimal u
  have hpu := ParseUint_decimal w hw u hlt
  rw [hc] at hloop hpu
  unfold Atoi
  rw [hc]
  by_cases hfast : (w = 32 ∧ 0 < (c :: rest).length ∧ (c :: rest).length < 10) ∨
      (w = 64 ∧ 0 < (c :: rest).length ∧ (c :: rest).length < 19)
  · simp only [if_pos hfast]
    simp [atoiFast, h45, h43, hloop]
  · simp only [if_neg hfast]
    have hge : ¬ (u ≥ 2 ^ (w - 1)) := by omega
    have hi : -(2 : Int) ^ (w - 1) ≤ (u : Int) ∧ (u : Int) < 2 ^ (w - 1) := by
      constructor
      · have : (0 : Int) ≤ 2 ^ (w - 1) := by positivity
        omega
      · exact_mod_cast hu
    have h64 : -(2 : Int) ^ (64 - 1) ≤ (u : Int) ∧ (u : Int) < 2 ^ (64 - 1) := by
      rcases hw with rfl | rfl <;> norm_num at hi ⊢ <;> omega
    simp [ParseInt, h45, h43, hpu, hge, wrapInt_id 64 (Or.inr rfl) _ h64, wrapInt_id w hw _ hi]

theorem wrapInt_neg_wrapInt (u : Nat) (hu : u ≤ 2 ^ 63) :
    wrapInt 64 (-(wrapInt 64 (u : Int))) = -(u : Int) := by
  unfold wrapInt
  norm_num at hu ⊢
  omega

/-- `Atoi` reads back a minus sign followed by the digits of the absolute value. -/
theorem Atoi_neg_decimal (w : Nat) (hw : w = 32 ∨ w = 64) (u : Nat) (hu : u ≤ 2 ^ (w - 1)) :
    Atoi w (45 :: decimal u) = (-(u : Int), none) := by
  have hlt : u < 2 ^ w := by rcases hw with rfl | rfl <;> norm_num at hu ⊢ <;> omega
  have h63 : u ≤ 2 ^ 63 := by rcases hw with rfl | rfl <;> norm_num at hu ⊢ <;> omega
  have hloop := atoiLoop_decimal u
  have hpu := ParseUint_decimal w hw u hlt
  have hlen : ¬ (decimal u).length < 1 := by
    have := List.length_pos.mpr (decimal_ne_nil u)
    omega
  unfold Atoi
  by_cases hfast : (w = 32 ∧ 0 < (45 :: decimal u).length ∧ (45 :: decimal u).length < 10) ∨
      (w = 64 ∧ 0 < (45 :: decimal u).length ∧ (45 :: decimal u).length < 19)
  · simp only [if_pos hfast]
    simp [atoiFast, hloop, hlen]
  · simp only [if_neg hfast]
    have hgt : ¬ (u > 2 ^ (w - 1)) := by omega
    have hi : -(2 : Int) ^ (w - 1) ≤ -(u : Int) ∧ -(u : Int) < 2 ^ (w - 1) := by
      have h0 : (0 : Int) < 2 ^ (w - 1) := by positivity
      have h1 : (u : Int) ≤ 2 ^ (w - 1) := by exact_mod_cast hu
      constructor <;> omega
    simp [ParseInt, hpu, hgt, wrapInt_neg_wrapInt u h63, wrapInt_id w hw _ hi]

theorem fmtInteger_nonneg (v : Int) (h0 : 0 ≤ v) (h : v < 2 ^ 63) :
    fmtInteger v = decimal v.toNat := by
  have hu : (v % 2 ^ 64).toNat = v.toNat := by norm_num at h ⊢; omega
  have hn : decide (wrapInt 64 (((v % 2 ^ 64).toNat : Nat) : Int) < 0) = false := by
    rw [hu, decide_eq_false_iff_not]
    unfold wrapInt
    norm_num at h ⊢
    omega
  unfold fmtInteger
  rw [hu] at hn
  simp only [hu, hn, Bool.false_eq_true, if_false]

theorem fmtInteger_neg (v : Int) (h0 : v < 0) (h : -2 ^ 63 ≤ v) :
    fmtInteger v = 45 :: decimal (-v).toNat := by
  have hn : decide (wrapInt 64 (((v % 2 ^ 64).toNat : Nat) : Int) < 0) = true := by
    rw [decide_eq_true_iff]
    unfold wrapInt
    norm_num at h ⊢
    omega
  have hu : (2 ^ 64 - (v % 2 ^ 64).toNat) % 2 ^ 64 = (-v).toNat := by norm_num at h ⊢; omega
  unfold fmtInteger
  simp only [hn, if_true, hu]

/-- Formatting an `int` with `%d` and reading it back with `Atoi` gives the same `int`,
without error. -/
theorem Atoi_fmtInteger (w : Nat) (hw : w = 32 ∨ w = 64) (v : Int)
    (hv : -(2 : Int) ^ (w - 1) ≤ v ∧ v < 2 ^ (w - 1)) : Atoi w (fmtInteger v) = (v, none) := by
  have h64 : -(2 : Int) ^ 63 ≤ v ∧ v < 2 ^ 63 := by
    rcases hw with rfl | rfl <;> norm_num at hv ⊢ <;> omega
  by_cases h0 : 0 ≤ v
  · rw [fmtInteger_nonneg v h0 h64.2, Atoi_decimal w hw]
    · simp [Int.toNat_of_nonneg h0]
    · have : ((v.toNat : Nat) : Int) < 2 ^ (w - 1) := by rw [Int.toNat_of_nonneg h0]; exact hv.2
      exact_mod_cast this
  · have hneg : v < 0 := by omega
    rw [fmtInteger_neg v hneg (by simpa using h64.1), Atoi_neg_decimal w hw]
    · have : (((-v).toNat : Nat) : Int) = -v := Int.toNat_of_nonneg (by omega)
      rw [this]; simp
    · have : (((-v).toNat : Nat) : Int) ≤ 2 ^ (w - 1) := by
        rw [Int.toNat_of_nonneg (by omega)]; omega
      exact_mod_cast this

theorem fmtInteger_bytes (v : Int) (h : -(2 : Int) ^ 63 ≤ v ∧ v < 2 ^ 63) :
    ∀ b ∈ fmtInteger v, b.toNat = 45 ∨ (48 ≤ b.toNat ∧ b.toNat ≤ 57) := by
  intro b hb
  by_cases h0 : 0 ≤ v
  · rw [fmtInteger_nonneg v h0 h.2] at hb
    exact Or.inr (decimal_digits _ b hb)
  · rw [fmtInteger_neg v (by omega) (by simpa using h.1)] at hb
    rcases List.mem_cons.mp hb with e | e
    · subst e; exact Or.inl rfl
    · exact Or.inr (decimal_digits _ b e)

theorem atoiLoop_run (ds rest : GoString) (b : UInt8) (n : Int)
    (hds : ∀ c ∈ ds, 48 ≤ c.toNat ∧ c.toNat ≤ 57) (hb : ¬ (48 ≤ b.toNat ∧ b.toNat ≤ 57)) :
    atoiLoop (ds ++ b :: rest) n = none := by
  induction ds generalizing n with
  | nil => exact atoiLoop_nondigit b rest n hb
  | cons c ds ih =>
    rw [List.cons_append, atoiLoop_digit c _ n (hds c (by simp))]
    exact ih _ (fun x hx => hds x (by simp [hx]))

theorem parseUintLoop_run (M : Nat) (hM : M < 2 ^ 64) (ds rest : GoString) (b : UInt8) (n : Nat)
    (hds : ∀ c ∈ ds, 48 ≤ c.toNat ∧ c.toNat ≤ 57) (hb : ¬ (48 ≤ b.toNat ∧ b.toNat ≤ 57))
    (hn : (n + 1) * 10 ^ ds.length ≤ M + 1) :
    parseUintLoop M (ds ++ b :: rest) n = (0, some .ErrSyntax) := by
  induction ds generalizing n with
  | nil => exact parseUintLoop_nondigit M b rest n hb
  | cons c ds ih =>
    have hc := hds c (by simp)
    have hpos : 0 < 10 ^ ds.length := by positivity
    have hn2 : (n + 1) * 10 * 10 ^ ds.length ≤ M + 1 := by
      simpa [pow_succ, Nat.mul_assoc, Nat.mul_comm, Nat.mul_left_comm] using hn
    have h1 : (n + 1) * 10 ≤ (n + 1) * 10 * 10 ^ ds.length := Nat.le_mul_of_pos_right _ hpos
    rw [List.cons_append, parseUintLoop_digit M c _ n hc hM (by omega)]
    apply ih _ (fun x hx => hds x (by simp [hx]))
    have h2 : (n * 10 + (c.toNat - 48) + 1) * 10 ^ ds.length ≤ (n + 1) * 10 * 10 ^ ds.length :=
      Nat.mul_le_mul_right _ (by omega)
    omega

theorem wrapInt_zero (w : Nat) (hw : w = 32 ∨ w = 64) : wrapInt w 0 = 0 :=
  wrapInt_id w hw 0 (by rcases hw with rfl | rfl <;> norm_num)

theorem Atoi_nil (w : Nat) (hw : w = 32 ∨ w = 64) : Atoi w [] = (0, some .ErrSyntax) := by
  simp [Atoi, ParseInt, wrapInt_zero w hw]

/-- A sign followed by a body that neither loop accepts is a syntax error. -/
theorem Atoi_signed_bad (w : Nat) (hw : w = 32 ∨ w = 64) (c : UInt8) (body : GoString)
    (hc : c = 43 ∨ c = 45) (hfast : body = [] ∨ atoiLoop body 0 = none)
    (hslow : ParseUint w body = (0, some .ErrSyntax)) :
    Atoi w (c :: body) = (0, some .ErrSyntax) := by
  have hc2 : c = 45 ∨ c = 43 := hc.symm
  unfold Atoi
  by_cases hcond : (w = 32 ∧ 0 < (c :: body).length ∧ (c :: body).length < 10) ∨
      (w = 64 ∧ 0 < (c :: body).length ∧ (c :: body).length < 19)
  · simp only [if_pos hcond, if_pos hc2]
    rcases hfast with h | h
    · simp [h]
    · simp [atoiFast, h]
  · simp only [if_neg hcond, ParseInt, if_pos hc, hslow, wrapInt_zero w hw]

/-- A string that starts with no sign and that neither loop accepts is a syntax error. -/
theorem Atoi_unsigned_bad (w : Nat) (hw : w = 32 ∨ w = 64) (c : UInt8) (r : GoString)
    (h43 : c ≠ 43) (h45 : c ≠ 45) (hfast : atoiLoop (c :: r) 0 = none)
    (hslow : ParseUint w (c :: r) = (0, some .ErrSyntax)) :
    Atoi w (c :: r) = (0, some .ErrSyntax) := by
  have hc : ¬ (c = 43 ∨ c = 45) := by simp [h43, h45]
  have hc2 : ¬ (c = 45 ∨ c = 43) := by simp [h43, h45]
  unfold Atoi
  by_cases hcond : (w = 32 ∧ 0 < (c :: r).length ∧ (c :: r).length < 10) ∨
      (w = 64 ∧ 0 < (c :: r).length ∧ (c :: r).length < 19)
  · simp only [if_pos hcond, if_neg hc2, atoiFast, hfast]
  · simp only [if_neg hcond, ParseInt, if_neg hc, hslow, wrapInt_zero w hw]

/-- `Atoi` on a malformed number: an optional sign `sgn`, a run of digits `ds` short enough not
to overflow, then either nothing (and no digit at all) or a byte that is no digit. -/
theorem Atoi_malformed (w : Nat) (hw : w = 32 ∨ w = 64) (sgn ds rest : GoString)
    (hs : sgn = [] ∨ sgn = [43] ∨ sgn = [45])
    (hds : ∀ c ∈ ds, 48 ≤ c.toNat ∧ c.toNat ≤ 57) (hlen : 10 ^ ds.length ≤ 2 ^ w)
    (hrest : (ds = [] ∧ rest = []) ∨ ∃ b tl, rest = b :: tl ∧ ¬ (48 ≤ b.toNat ∧ b.toNat ≤ 57) ∧
      (sgn = [] → ds = [] → b ≠ 43 ∧ b ≠ 45)) :
    Atoi w (sgn ++ ds ++ rest) = (0, some .ErrSyntax) := by
  have hM : 2 ^ w - 1 < 2 ^ 64 := by rcases hw with rfl | rfl <;> norm_num
  have hpos : 0 < 2 ^ w := by positivity
  have hfast : ds ++ rest = [] ∨ atoiLoop (ds ++ rest) 0 = none := by
    rcases hrest with ⟨h1, h2⟩ | ⟨b, tl, h1, h2, -⟩
    · exact Or.inl (by simp [h1, h2])
    · exact Or.inr (by rw [h1]; exact atoiLoop_run ds tl b 0 hds h2)
  have hslow : ParseUint w (ds ++ rest) = (0, some .ErrSyntax) := by
    rcases hrest with ⟨h1, h2⟩ | ⟨b, tl, h1, h2, -⟩
    · simp [ParseUint, h1, h2]
    · rw [ParseUint, if_neg (by simp [h1]), maxVal_eq w hw, h1]
      exact parseUintLoop_run _ hM ds tl b 0 hds h2 (by omega)
  rcases hs with rfl | rfl | rfl
  · rw [List.nil_append]
    cases hb : ds ++ rest with
    | nil => exact Atoi_nil w hw
    | cons c r =>
      have hne : c ≠ 43 ∧ c ≠ 45 := by
        cases ds with
        | nil =>
          rcases hrest with ⟨-, h2⟩ | ⟨b, tl, h1, -, h3⟩
          · simp [h2] at hb
          · rw [List.nil_append, h1] at hb
            obtain ⟨rfl, -⟩ := List.cons.inj hb
            exact h3 rfl rfl
        | cons d ds2 =>
          rw [List.cons_append] at hb
          obtain ⟨rfl, -⟩ := List.cons.inj hb
          have hd := hds d (by simp)
          exact ⟨ne_of_toNat_ne d 43 (by show d.toNat ≠ 43; omega),
            ne_of_toNat_ne d 45 (by show d.toNat ≠ 45; omega)⟩
      rw [hb] at hfast hslow
      exact Atoi_unsigned_bad w hw c r hne.1 hne.2 (by simpa using hfast) hslow
  · rw [List.append_assoc, List.singleton_append]
    exact Atoi_signed_bad w hw 43 _ (Or.inl rfl) hfast hslow
  · rw [List.append_assoc, List.singleton_append]
    exact Atoi_signed_bad w hw 45 _ (Or.inr rfl) hfast hslow

/-! ## Lemmas on `NewEndpoint`

Bytes are written as numbers: `64` is `@`, `58` is `:`, `45` is `-`, `43` is `+` and
`48` to `57` are the digits `0` to `9`. -/

theorem NewEndpoint_plain (w : Nat) (h : GoString) (h1 : 64 ∉ h) (h2 : 58 ∉ h) :
    NewEndpoint w h = ⟨h, 0, []⟩ := by
  simp [NewEndpoint, Split_of_not_mem 64 h h1, Split_of_not_mem 58 h h2]

theorem NewEndpoint_port (w : Nat) (h p : GoString) (h1 : 64 ∉ h) (h2 : 58 ∉ h) (p1 : 64 ∉ p)
    (p2 : 58 ∉ p) : NewEndpoint w (h ++ 58 :: p) = ⟨h, (Atoi w p).1, []⟩ := by
  have hat : (64 : UInt8) ∉ h ++ 58 :: p := by simp [h1, p1]
  simp [NewEndpoint, Split_of_not_mem 64 _ hat, Split_append 58 h p h2, Split_of_not_mem 58 p p2]

theorem NewEndpoint_port_extra (w : Nat) (h p t : GoString) (h1 : 64 ∉ h) (h2 : 58 ∉ h)
    (p1 : 64 ∉ p) (p2 : 58 ∉ p) (t1 : 64 ∉ t) :
    NewEndpoint w (h ++ 58 :: (p ++ 58 :: t)) = ⟨h, (Atoi w p).1, []⟩ := by
  have hat : (64 : UInt8) ∉ h ++ 58 :: (p ++ 58 :: t) := by simp [h1, p1, t1]
  simp [NewEndpoint, Split_of_not_mem 64 _ hat, Split_append 58 h _ h2, Split_append 58 p t p2]

theorem Split_cons (sep : UInt8) (s : GoString) : ∃ p ps, Split s sep = p :: ps := by
  unfold Split
  cases Count s sep with
  | zero => exact ⟨s, [], rfl⟩
  | succ k =>
    simp only [genSplit]
    split
    · exact ⟨s, [], rfl⟩
    · exact ⟨_, _, rfl⟩

theorem NewEndpoint_user (w : Nat) (u m : GoString) (hu : 64 ∉ u) (hm : 64 ∉ m) :
    NewEndpoint w (u ++ 64 :: m) = { NewEndpoint w m with User := u } := by
  simp only [NewEndpoint, Split_append 64 u m hu, Split_of_not_mem 64 m hm]
  split <;> rfl

theorem NewEndpoint_user_extra (w : Nat) (u m t : GoString) (hu : 64 ∉ u) (hm : 64 ∉ m) :
    NewEndpoint w (u ++ 64 :: (m ++ 64 :: t)) = { NewEndpoint w m with User := u } := by
  obtain ⟨q, qs, hq⟩ := Split_cons 64 t
  simp only [NewEndpoint, Split_append 64 u _ hu, Split_append 64 m t hm, hq,
    Split_of_not_mem 64 m hm]
  split <;> rfl

theorem first_occurrence (sep : UInt8) (s : GoString) (h : sep ∈ s) :
    ∃ a r, s = a ++ sep :: r ∧ sep ∉ a := by
  induction s with
  | nil => simp at h
  | cons b tl ih =>
    by_cases hb : b = sep
    · exact ⟨[], tl, by simp [hb], by simp⟩
    · have htl : sep ∈ tl := by
        rcases List.mem_cons.mp h with e | e
        · exact absurd e.symm hb
        · exact e
      obtain ⟨a, r, e, ha⟩ := ih htl
      refine ⟨b :: a, r, by simp [e], ?_⟩
      simp only [List.mem_cons, not_or]
      exact ⟨fun e2 => hb e2.symm, ha⟩

theorem Split_head_cons (sep b : UInt8) (tl : GoString) (hb : b ≠ sep) :
    ∃ a qs, Split (b :: tl) sep = (b :: a) :: qs := by
  by_cases h : sep ∈ tl
  · obtain ⟨a, r, e, ha⟩ := first_occurrence sep tl h
    have hba : sep ∉ b :: a := by
      simp only [List.mem_cons, not_or]
      exact ⟨fun e2 => hb e2.symm, ha⟩
    refine ⟨a, Split r sep, ?_⟩
    rw [e, ← List.cons_append, Split_append sep (b :: a) r hba]
  · have hbt : sep ∉ b :: tl := by
      simp only [List.mem_cons, not_or]
      exact ⟨fun e2 => hb e2.symm, h⟩
    exact ⟨tl, [], Split_of_not_mem sep _ hbt⟩

theorem NewEndpoint_host_plain (w : Nat) (m : GoString) (hm : 64 ∉ m) :
    (NewEndpoint w m).Host ≠ [] ↔ ∃ b tl, m = b :: tl ∧ b ≠ 58 := by
  cases m with
  | nil => simp [NewEndpoint, Split, Count, genSplit]
  | cons b tl =>
    by_cases hb : b = 58
    · subst hb
      obtain ⟨q, qs, hq⟩ := Split_cons 58 tl
      have h1 : Split (58 :: tl) 58 = [] :: q :: qs := by
        rw [← hq]
        exact Split_append 58 [] tl (by simp)
      simp [NewEndpoint, Split_of_not_mem 64 _ hm, h1]
    · obtain ⟨a, qs, hq⟩ := Split_head_cons 58 b tl hb
      have hr : ∃ b2 tl2, b :: tl = b2 :: tl2 ∧ b2 ≠ 58 := ⟨b, tl, rfl, hb⟩
      simp only [NewEndpoint, Split_of_not_mem 64 _ hm, hq, hr, iff_true]
      cases qs <;> simp

/-! ## The claims -/

/-- C1. `NewEndpoint` parses well-formed addresses field by field: for a user `u` and a host
`h` that contain neither `@` (64) nor `:` (58) and a port `n` with `0 ≤ n ≤ 65535` written in
decimal, `NewEndpoint(h)`, `NewEndpoint(u@h)`, `NewEndpoint(h:n)` and `NewEndpoint(u@h:n)`
have host `h`, port `0` or `n`, and user empty or `u`. -/
theorem NewEndpoint_well_formed (w : Nat) (hw : w = 32 ∨ w = 64) (u h : GoString) (n : Nat)
    (hu : 64 ∉ u ∧ 58 ∉ u) (hh : 64 ∉ h ∧ 58 ∉ h) (hn : n ≤ 65535) :
    NewEndpoint w h = { Host := h, Port := 0, User := [] } ∧
    NewEndpoint w (u ++ str "@" ++ h) = { Host := h, Port := 0, User := u } ∧
    NewEndpoint w (h ++ str ":" ++ decimal n) = { Host := h, Port := n, User := [] } ∧
    NewEndpoint w (u ++ str "@" ++ h ++ str ":" ++ decimal n)
      = { Host := h, Port := n, User := u } := by
  have hd1 : (64 : UInt8) ∉ decimal n := fun hm => absurd (decimal_digits n 64 hm) (by decide)
  have hd2 : (58 : UInt8) ∉ decimal n := fun hm => absurd (decimal_digits n 58 hm) (by decide)
  have hlt : n < 2 ^ (w - 1) := by rcases hw with rfl | rfl <;> norm_num <;> omega
  have hport : NewEndpoint w (h ++ 58 :: decimal n) = ⟨h, n, []⟩ := by
    rw [NewEndpoint_port w h _ hh.1 hh.2 hd1 hd2, Atoi_decimal w hw n hlt]
  have hm : (64 : UInt8) ∉ h ++ 58 :: decimal n := by simp [hh.1, hd1]
  refine ⟨NewEndpoint_plain w h hh.1 hh.2, ?_, ?_, ?_⟩
  · simp only [str_at, List.append_assoc, List.singleton_append, List.cons_append,
    List.nil_append]
    rw [NewEndpoint_user w u h hu.1 hh.1, NewEndpoint_plain w h hh.1 hh.2]
  · simp only [str_colon, List.append_assoc, List.singleton_append]
    exact hport
  · simp only [str_at, str_colon, List.append_assoc, List.singleton_append, List.cons_append,
    List.nil_append]
    rw [NewEndpoint_user w u _ hu.1 hm, hport]

theorem NewEndpoint_well_formed_witness :
    ((64 : UInt8) ∉ str "user" ∧ (58 : UInt8) ∉ str "user") ∧
    ((64 : UInt8) ∉ str "host" ∧ (58 : UInt8) ∉ str "host") ∧ 2222 ≤ 65535 ∧
    NewEndpoint 64 (str "host") = { Host := str "host", Port := 0, User := [] } ∧
    NewEndpoint 64 (str "user" ++ str "@" ++ str "host")
      = { Host := str "host", Port := 0, User := str "user" } ∧
    NewEndpoint 64 (str "host" ++ str ":" ++ decimal 2222)
      = { Host := str "host", Port := 2222, User := [] } ∧
    NewEndpoint 64 (str "user" ++ str "@" ++ str "host" ++ str ":" ++ decimal 2222)
      = { Host := str "host", Port := 2222, User := str "user" } :=
  ⟨by decide, by decide, by decide,
    NewEndpoint_well_formed 64 (Or.inr rfl) (str "user") (str "host") 2222 (by decide)
      (by decide) (by decide)⟩

/-- C3, as stated, fails: `NewEndpoint("a@b@c")` has user `a` and host `b`, not `b@c`. -/
theorem NewEndpoint_second_at_dropped :
    NewEndpoint 64 (str "a@b@c") = { Host := str "b", Port := 0, User := str "a" } ∧
    (NewEndpoint 64 (str "a@b@c")).Host ≠ str "b@c" := by
  decide

/-- C3, amended. `NewEndpoint` splits on every `@` (64) and keeps the first two segments: with
`u` and `m` free of `@`, both `u@m` and `u@m@t` give user `u` and the host and port parsed
from `m` alone; the text from the second `@` on is dropped. -/
theorem NewEndpoint_at_segments (w : Nat) (u m t : GoString) (hu : 64 ∉ u) (hm : 64 ∉ m) :
    NewEndpoint w (u ++ str "@" ++ m) = { NewEndpoint w m with User := u } ∧
    NewEndpoint w (u ++ str "@" ++ m ++ str "@" ++ t) = { NewEndpoint w m with User := u } := by
  simp only [str_at, List.append_assoc, List.singleton_append, List.cons_append,
    List.nil_append]
  exact ⟨NewEndpoint_user w u m hu hm, NewEndpoint_user_extra w u m t hu hm⟩

theorem NewEndpoint_at_segments_witness :
    (64 : UInt8) ∉ str "a" ∧ (64 : UInt8) ∉ str "b:22" ∧
    NewEndpoint 64 (str "a" ++ str "@" ++ str "b:22")
      = { NewEndpoint 64 (str "b:22") with User := str "a" } ∧
    NewEndpoint 64 (str "a" ++ str "@" ++ str "b:22" ++ str "@" ++ str "c:33")
      = { NewEndpoint 64 (str "b:22") with User := str "a" } :=
  ⟨by decide, by decide,
    NewEndpoint_at_segments 64 (str "a") (str "b:22") (str "c:33") (by decide) (by decide)⟩

/-- C4, as stated, fails: `NewEndpoint("host:22:33")` has port `22`, not `0`. -/
theorem NewEndpoint_second_colon_port :
    NewEndpoint 64 (str "host:22:33") = { Host := str "host", Port := 22, User := [] } ∧
    (NewEndpoint 64 (str "host:22:33")).Port ≠ 0 := by
  decide

/-- C4, amended. `NewEndpoint` splits the host part on every `:` (58) and keeps the first two
segments: with `h` and `p` free of `:` (and `h`, `p`, `t` free of `@`), both `h:p` and `h:p:t`,
with or without a user part `u@`, give host `h` and the port `Atoi(p)`; the text from the
second `:` on is dropped. -/
theorem NewEndpoint_colon_segments (w : Nat) (u h p t : GoString) (hu : 64 ∉ u)
    (hh : 64 ∉ h ∧ 58 ∉ h) (hp : 64 ∉ p ∧ 58 ∉ p) (ht : 64 ∉ t) :
    NewEndpoint w (h ++ str ":" ++ p) = { Host := h, Port := (Atoi w p).1, User := [] } ∧
    NewEndpoint w (h ++ str ":" ++ p ++ str ":" ++ t)
      = { Host := h, Port := (Atoi w p).1, User := [] } ∧
    NewEndpoint w (u ++ str "@" ++ h ++ str ":" ++ p)
      = { Host := h, Port := (Atoi w p).1, User := u } ∧
    NewEndpoint w (u ++ str "@" ++ h ++ str ":" ++ p ++ str ":" ++ t)
      = { Host := h, Port := (Atoi w p).1, User := u } := by
  have m1 : (64 : UInt8) ∉ h ++ 58 :: p := by simp [hh.1, hp.1]
  have m2 : (64 : UInt8) ∉ h ++ 58 :: (p ++ 58 :: t) := by simp [hh.1, hp.1, ht]
  have e1 := NewEndpoint_port w h p hh.1 hh.2 hp.1 hp.2
  have e2 := NewEndpoint_port_extra w h p t hh.1 hh.2 hp.1 hp.2 ht
  simp only [str_at, str_colon, List.append_assoc, List.singleton_append, List.cons_append,
    List.nil_append]
  refine ⟨e1, e2, ?_, ?_⟩
  · rw [NewEndpoint_user w u _ hu m1, e1]
  · rw [NewEndpoint_user w u _ hu m2, e2]

theorem NewEndpoint_colon_segments_witness :
    (64 : UInt8) ∉ str "u" ∧ ((64 : UInt8) ∉ str "host" ∧ (58 : UInt8) ∉ str "host") ∧
    ((64 : UInt8) ∉ str "22" ∧ (58 : UInt8) ∉ str "22") ∧ (64 : UInt8) ∉ str "33" ∧
    NewEndpoint 64 (str "host" ++ str ":" ++ str "22")
      = { Host := str "host", Port := (Atoi 64 (str "22")).1, User := [] } ∧
    NewEndpoint 64 (str "host" ++ str ":" ++ str "22" ++ str ":" ++ str "33")
      = { Host := str "host", Port := (Atoi 64 (str "22")).1, User := [] } ∧
    NewEndpoint 64 (str "u" ++ str "@" ++ str "host" ++ str ":" ++ str "22")
      = { Host := str "host", Port := (Atoi 64 (str "22")).1, User := str "u" } ∧
    NewEndpoint 64 (str "u" ++ str "@" ++ str "host" ++ str ":" ++ str "22" ++ str ":" ++ str "33")
      = { Host := str "host", Port := (Atoi 64 (str "22")).1, User := str "u" } :=
  ⟨by decide, by decide, by decide, by decide,
    NewEndpoint_colon_segments 64 (str "u") (str "host") (str "22") (str "33") (by decide)
      (by decide) (by decide) (by decide)⟩

/-- C2, as stated, fails: the port segments `-5` and `+5` are read as the numbers `-5` and
`5`, not degraded to `0`; and a port segment with an `@` changes the host. -/
theorem NewEndpoint_signed_port :
    NewEndpoint 64 (str "host:-5") = { Host := str "host", Port := -5, User := [] } ∧
    NewEndpoint 64 (str "host:+5") = { Host := str "host", Port := 5, User := [] } ∧
    NewEndpoint 64 (str "host:a@b") = { Host := str "b", Port := 0, User := str "host:a" } := by
  decide

/-- C2, amended. `NewEndpoint` reads the port with `strconv.Atoi`, a signed parse, and drops
its error: for a host `h` free of `@` (64) and `:` (58) and a port segment `sgn ++ ds ++ rest`
free of `@` and `:`, made of an optional sign `sgn` (`+` is 43, `-` is 45), a run of digits `ds`
with `10 ^ |ds| ≤ 2 ^ intSize`, and a `rest` that is empty with `ds` empty, or starts with a
byte that is no digit (and is no sign when `sgn` and `ds` are empty), the result is
`{Host: h, Port: 0, User: ""}`. -/
theorem NewEndpoint_malformed_port (w : Nat) (hw : w = 32 ∨ w = 64) (h sgn ds rest : GoString)
    (hh : 64 ∉ h ∧ 58 ∉ h) (hs : sgn = [] ∨ sgn = [43] ∨ sgn = [45])
    (hds : ∀ c ∈ ds, 48 ≤ c.toNat ∧ c.toNat ≤ 57) (hlen : 10 ^ ds.length ≤ 2 ^ w)
    (hrest : (ds = [] ∧ rest = []) ∨ ∃ b tl, rest = b :: tl ∧ ¬ (48 ≤ b.toNat ∧ b.toNat ≤ 57) ∧
      (sgn = [] → ds = [] → b ≠ 43 ∧ b ≠ 45))
    (hr : 64 ∉ rest ∧ 58 ∉ rest) :
    NewEndpoint w (h ++ str ":" ++ (sgn ++ ds ++ rest)) = { Host := h, Port := 0, User := [] } := by
  have hd1 : (64 : UInt8) ∉ ds := fun hm => absurd (hds 64 hm) (by decide)
  have hd2 : (58 : UInt8) ∉ ds := fun hm => absurd (hds 58 hm) (by decide)
  have hs1 : (64 : UInt8) ∉ sgn := by rcases hs with rfl | rfl | rfl <;> decide
  have hs2 : (58 : UInt8) ∉ sgn := by rcases hs with rfl | rfl | rfl <;> decide
  have p1 : (64 : UInt8) ∉ sgn ++ ds ++ rest := by simp [hs1, hd1, hr.1]
  have p2 : (58 : UInt8) ∉ sgn ++ ds ++ rest := by simp [hs2, hd2, hr.2]
  rw [str_colon, List.append_assoc, List.singleton_append,
    NewEndpoint_port w h _ hh.1 hh.2 p1 p2, Atoi_malformed w hw sgn ds rest hs hds hlen hrest]

theorem NewEndpoint_malformed_port_witness :
    NewEndpoint 64 (str "host" ++ str ":" ++ ([] ++ str "22" ++ str "x"))
      = { Host := str "host", Port := 0, User := [] } ∧
    NewEndpoint 64 (str "host" ++ str ":" ++ ([] ++ [] ++ str "abc"))
      = { Host := str "host", Port := 0, User := [] } ∧
    NewEndpoint 64 (str "host" ++ str ":" ++ ([] ++ [] ++ []))
      = { Host := str "host", Port := 0, User := [] } ∧
    NewEndpoint 32 (str "host" ++ str ":" ++ (str "-" ++ [] ++ []))
      = { Host := str "host", Port := 0, User := [] } :=
  ⟨NewEndpoint_malformed_port 64 (Or.inr rfl) (str "host") [] (str "22") (str "x") (by decide)
      (Or.inl rfl) (by decide) (by decide)
      (Or.inr ⟨120, [], rfl, by decide, fun _ hd => absurd hd (by decide)⟩) (by decide),
    NewEndpoint_malformed_port 64 (Or.inr rfl) (str "host") [] [] (str "abc") (by decide)
      (Or.inl rfl) (by decide) (by decide)
      (Or.inr ⟨97, str "bc", rfl, by decide, fun _ _ => by decide⟩) (by decide),
    NewEndpoint_malformed_port 64 (Or.inr rfl) (str "host") [] [] [] (by decide)
      (Or.inl rfl) (by decide) (by decide) (Or.inl ⟨rfl, rfl⟩) (by decide),
    NewEndpoint_malformed_port 32 (Or.inl rfl) (str "host") (str "-") [] [] (by decide)
      (Or.inr (Or.inr rfl)) (by decide) (by decide) (Or.inl ⟨rfl, rfl⟩) (by decide)⟩

/-- C5, as stated, fails: the empty string, a string that ends at its `@`, and a string whose
host part starts with `:` all give an empty host. -/
theorem NewEndpoint_empty_host :
    (NewEndpoint 64 (str "")).Host = [] ∧ (NewEndpoint 64 (str "user@")).Host = [] ∧
    (NewEndpoint 64 (str ":22")).Host = [] ∧ (NewEndpoint 64 (str "user@:22")).Host = [] := by
  decide

/-- C5, amended. The host is non-empty exactly when the host part starts with a byte that is
neither `@` (64) nor `:` (58): for `u` free of `@`, `NewEndpoint(u)` has a non-empty host iff
`u` starts with a byte other than `:`, and `NewEndpoint(u@r)` has a non-empty host iff `r`
starts with a byte other than `@` and `:`. -/
theorem NewEndpoint_host_nonempty_iff (w : Nat) (u r : GoString) (hu : 64 ∉ u) :
    ((NewEndpoint w u).Host ≠ [] ↔ ∃ b tl, u = b :: tl ∧ b ≠ 58) ∧
    ((NewEndpoint w (u ++ str "@" ++ r)).Host ≠ [] ↔ ∃ b tl, r = b :: tl ∧ b ≠ 64 ∧ b ≠ 58) := by
  refine ⟨NewEndpoint_host_plain w u hu, ?_⟩
  simp only [str_at, List.append_assoc, List.singleton_append]
  by_cases hr : 64 ∈ r
  · obtain ⟨m, t, e, hm⟩ := first_occurrence 64 r hr
    subst e
    rw [NewEndpoint_user_extra w u m t hu hm]
    show (NewEndpoint w m).Host ≠ [] ↔ _
    rw [NewEndpoint_host_plain w m hm]
    constructor
    · rintro ⟨b, tl, rfl, hb⟩
      refine ⟨b, tl ++ 64 :: t, by simp, ?_, hb⟩
      intro e
      exact hm (by simp [e])
    · rintro ⟨b, tl, e, hb64, hb58⟩
      cases m with
      | nil =>
        simp only [List.nil_append, List.cons.injEq] at e
        exact absurd e.1.symm hb64
      | cons c m2 =>
        simp only [List.cons_append, List.cons.injEq] at e
        exact ⟨c, m2, rfl, by rw [e.1]; exact hb58⟩
  · rw [NewEndpoint_user w u r hu hr]
    show (NewEndpoint w r).Host ≠ [] ↔ _
    rw [NewEndpoint_host_plain w r hr]
    constructor
    · rintro ⟨b, tl, rfl, hb⟩
      refine ⟨b, tl, rfl, ?_, hb⟩
      intro e
      exact hr (by simp [e])
    · rintro ⟨b, tl, e, -, hb58⟩
      exact ⟨b, tl, e, hb58⟩

theorem NewEndpoint_host_nonempty_iff_witness :
    (64 : UInt8) ∉ str "user" ∧
    ((NewEndpoint 64 (str "user")).Host ≠ [] ↔ ∃ b tl, str "user" = b :: tl ∧ b ≠ 58) ∧
    ((NewEndpoint 64 (str "user" ++ str "@" ++ str ":22")).Host ≠ [] ↔
      ∃ b tl, str ":22" = b :: tl ∧ b ≠ 64 ∧ b ≠ 58) :=
  ⟨by decide, NewEndpoint_host_nonempty_iff 64 (str "user") (str ":22") (by decide)⟩

/-- C6. Default-port law of `NewSSHTunnel`: the tunnel's `Server` is `NewEndpoint(j)` with the
port replaced by 22 exactly when the parsed port is 0 (host and user unchanged, a non-zero port
kept), and the tunnel's `Remote` is `NewEndpoint(d)` as it is. -/
theorem NewSSHTunnel_default_port (w : Nat) (j d : GoString) (p : Int) :
    (NewSSHTunnel w j d p).Server =
      { Host := (NewEndpoint w j).Host,
        Port := if (NewEndpoint w j).Port = 0 then 22 else (NewEndpoint w j).Port,
        User := (NewEndpoint w j).User } ∧
    (NewSSHTunnel w j d p).Remote = NewEndpoint w d := by
  refine ⟨?_, rfl⟩
  simp only [NewSSHTunnel]
  split <;> rfl

/-- C7. The local endpoint of `NewSSHTunnel`: for every `int` `localPort`, negative or zero
included, and every `j` and `d`, the tunnel's `Local` is
`{Host: "localhost", Port: localPort, User: ""}`. -/
theorem NewSSHTunnel_local (w : Nat) (hw : w = 32 ∨ w = 64) (j d : GoString) (localPort : Int)
    (hp : -(2 : Int) ^ (w - 1) ≤ localPort ∧ localPort < 2 ^ (w - 1)) :
    (NewSSHTunnel w j d localPort).Local
      = { Host := str "localhost", Port := localPort, User := [] } := by
  have h64 : -(2 : Int) ^ 63 ≤ localPort ∧ localPort < 2 ^ 63 := by
    rcases hw with rfl | rfl <;> norm_num at hp ⊢ <;> omega
  have hb := fmtInteger_bytes localPort h64
  have f1 : (64 : UInt8) ∉ fmtInteger localPort := fun hm => by
    rcases hb 64 hm with e | e <;> exact absurd e (by decide)
  have f2 : (58 : UInt8) ∉ fmtInteger localPort := fun hm => by
    rcases hb 58 hm with e | e <;> exact absurd e (by decide)
  have e : str "localhost:" ++ fmtInteger localPort
      = str "localhost" ++ 58 :: fmtInteger localPort := by
    have : str "localhost:" = str "localhost" ++ [58] := by decide
    rw [this, List.append_assoc, List.singleton_append]
  simp only [NewSSHTunnel]
  rw [e, NewEndpoint_port w (str "localhost") _ (by decide) (by decide) f1 f2,
    Atoi_fmtInteger w hw localPort hp]

theorem NewSSHTunnel_local_witness :
    (-(2 : Int) ^ (64 - 1) ≤ -5 ∧ (-5 : Int) < 2 ^ (64 - 1)) ∧
    (NewSSHTunnel 64 (str "u@jump") (str "db:3306") (-5)).Local
      = { Host := str "localhost", Port := -5, User := [] } :=
  ⟨by decide, NewSSHTunnel_local 64 (Or.inr rfl) (str "u@jump") (str "db:3306") (-5) (by decide)⟩

/-- C10. `String` then `NewEndpoint`: for an endpoint whose host has neither `@` (64) nor
`:` (58) and whose port is any `int`, `NewEndpoint(e.String())` is
`{Host: e.Host, Port: e.Port, User: ""}`; only the user is lost. -/
theorem NewEndpoint_String (w : Nat) (hw : w = 32 ∨ w = 64) (e : Endpoint)
    (hh : 64 ∉ e.Host ∧ 58 ∉ e.Host)
    (hp : -(2 : Int) ^ (w - 1) ≤ e.Port ∧ e.Port < 2 ^ (w - 1)) :
    NewEndpoint w e.String = { Host := e.Host, Port := e.Port, User := [] } := by
  have h64 : -(2 : Int) ^ 63 ≤ e.Port ∧ e.Port < 2 ^ 63 := by
    rcases hw with rfl | rfl <;> norm_num at hp ⊢ <;> omega
  have hb := fmtInteger_bytes e.Port h64
  have f1 : (64 : UInt8) ∉ fmtInteger e.Port := fun hm => by
    rcases hb 64 hm with e | e <;> exact absurd e (by decide)
  have f2 : (58 : UInt8) ∉ fmtInteger e.Port := fun hm => by
    rcases hb 58 hm with e | e <;> exact absurd e (by decide)
  rw [Endpoint.String, str_colon, List.append_assoc, List.singleton_append,
    NewEndpoint_port w _ _ hh.1 hh.2 f1 f2, Atoi_fmtInteger w hw e.Port hp]

theorem NewEndpoint_String_witness :
    ((64 : UInt8) ∉ str "db.internal" ∧ (58 : UInt8) ∉ str "db.internal") ∧
    (-(2 : Int) ^ (64 - 1) ≤ 3306 ∧ (3306 : Int) < 2 ^ (64 - 1)) ∧
    NewEndpoint 64 (Endpoint.String { Host := str "db.internal", Port := 3306, User := str "u" })
      = { Host := str "db.internal", Port := 3306, User := [] } :=
  ⟨by decide, by decide,
    NewEndpoint_String 64 (Or.inr rfl) { Host := str "db.internal", Port := 3306, User := str "u" }
      (by decide) (by decide)⟩

/-! ### Forwarding -/

/-- In `src/ssh_tunnel.go` a failed dial is logged and `forward` returns: when
`createSshConfig` succeeds and a logger is attached, `forward` never ends the process, and
after a failed dial its last action is the log entry of that error, with no copy task
started. -/
theorem SSHTunnel_forward_recoverable (tunnel : SSHTunnel) (env : Env)
    (hcfg : env.userCurrent = none ∧ env.knownhostsNew = none ∧ env.agentDial = none)
    (hlog : tunnel.Log = true) :
    (SSHTunnel.forward tunnel env).2 = .returned () ∧
    (∀ code, Event.Exit code ∉ (SSHTunnel.forward tunnel env).1) ∧
    Event.Panic ∉ (SSHTunnel.forward tunnel env).1 ∧
    (∀ err, env.sshDial = some err →
      (SSHTunnel.forward tunnel env).1 = [.Dial "unix" env.authSock,
        .Dial "tcp" tunnel.Server.String, .Printf "server dial error: %s" [err]]) ∧
    (∀ err, env.sshDial = none → env.remoteDial = some err →
      (SSHTunnel.forward tunnel env).1 = [.Dial "unix" env.authSock,
        .Dial "tcp" tunnel.Server.String,
        .Printf "connected to %s (1 of 2)\n" [tunnel.Server.String],
        .Dial "tcp" tunnel.Remote.String, .Printf "remote dial error: %s" [err]]) := by
  obtain ⟨uc, kh, sock, ad, sd, rd⟩ := env
  obtain ⟨h1, h2, h3⟩ := hcfg
  simp only at h1 h2 h3
  subst h1 h2 h3
  cases sd <;> cases rd <;>
    simp [SSHTunnel.forward, SSHTunnel.createSshConfig, SSHTunnel.logf, Logger.Printf, emit,
      bind, Run.bind, pure, hlog]

theorem SSHTunnel_forward_recoverable_witness :
    (SSHTunnel.forward
      { NewSSHTunnel 64 (str "u@jump") (str "db:3306") 0 with Log := true }
      { userCurrent := none, knownhostsNew := none, authSock := str "/tmp/agent",
        agentDial := none, sshDial := some (str "refused"), remoteDial := none }).2
      = .returned () :=
  (SSHTunnel_forward_recoverable _ _ ⟨rfl, rfl, rfl⟩ rfl).1

set_option maxRecDepth 4000 in
/-- C8, the failing inputs. In `src/ssh_tunnel/sshTunnel.go`, with a logger attached and
`createSshConfig` succeeding, a failed jump-host dial, a failed remote dial and a copy error
each end in `Fatalf`: the error is logged and the process exits with status 1. On the same
inputs `forward` and `copyConn` of `src/ssh_tunnel.go` log the error and return. -/
theorem sshTunnel_forward_fault_exits :
    sshTunnel.forward { NewSSHTunnel 64 (str "u@jump") (str "db:3306") 0 with Log := true }
        { userCurrent := none, knownhostsNew := none, authSock := str "/tmp/agent",
          agentDial := none, sshDial := some (str "refused"), remoteDial := none }
      = ([.Dial "unix" (str "/tmp/agent"), .Dial "tcp" (str "jump:22"),
          .Printf "server dial error: %s" [str "refused"], .Exit 1], .terminated) ∧
    sshTunnel.forward { NewSSHTunnel 64 (str "u@jump") (str "db:3306") 0 with Log := true }
        { userCurrent := none, knownhostsNew := none, authSock := str "/tmp/agent",
          agentDial := none, sshDial := none, remoteDial := some (str "refused") }
      = ([.Dial "unix" (str "/tmp/agent"), .Dial "tcp" (str "jump:22"),
          .Printf "connected to %s (1 of 2)\n" [str "jump:22"], .Dial "tcp" (str "db:3306"),
          .Printf "remote dial error: %s" [str "refused"], .Exit 1], .terminated) ∧
    sshTunnel.copyConn { NewSSHTunnel 64 (str "u@jump") (str "db:3306") 0 with Log := true }
        .localConn .remoteConn (some (str "reset"))
      = ([.Copy .localConn .remoteConn, .Printf "io.Copy error: %s" [str "reset"], .Exit 1],
          .terminated) ∧
    SSHTunnel.forward { NewSSHTunnel 64 (str "u@jump") (str "db:3306") 0 with Log := true }
        { userCurrent := none, knownhostsNew := none, authSock := str "/tmp/agent",
          agentDial := none, sshDial := some (str "refused"), remoteDial := none }
      = ([.Dial "unix" (str "/tmp/agent"), .Dial "tcp" (str "jump:22"),
          .Printf "server dial error: %s" [str "refused"]], .returned ()) ∧
    SSHTunnel.copyConn { NewSSHTunnel 64 (str "u@jump") (str "db:3306") 0 with Log := true }
        .localConn .remoteConn (some (str "reset"))
      = ([.Copy .localConn .remoteConn, .Printf "io.Copy error: %s" [str "reset"]],
          .returned ()) :=
  ⟨rfl, rfl, rfl, rfl, rfl⟩

/-- C9, as stated, fails: in a session where both dials succeed and both copy loops end
without error, the actions of `forward` and of the two copy tasks hold no `Close` of the local
connection and none of the remote connection: each is closed zero times, not once. -/
theorem forward_closes_nothing :
    (SSHTunnel.forward { NewSSHTunnel 64 (str "u@jump") (str "db:3306") 0 with Log := true }
        { userCurrent := none, knownhostsNew := none, authSock := str "/tmp/agent",
          agentDial := none, sshDial := none, remoteDial := none }).2 = .returned () ∧
    ((SSHTunnel.forward { NewSSHTunnel 64 (str "u@jump") (str "db:3306") 0 with Log := true }
        { userCurrent := none, knownhostsNew := none, authSock := str "/tmp/agent",
          agentDial := none, sshDial := none, remoteDial := none }).1
      ++ (SSHTunnel.copyConn
            { NewSSHTunnel 64 (str "u@jump") (str "db:3306") 0 with Log := true }
            .localConn .remoteConn none).1
      ++ (SSHTunnel.copyConn
            { NewSSHTunnel 64 (str "u@jump") (str "db:3306") 0 with Log := true }
            .remoteConn .localConn none).1)
      = [.Dial "unix" (str "/tmp/agent"), .Dial "tcp" (str "jump:22"),
          .Printf "connected to %s (1 of 2)\n" [str "jump:22"], .Dial "tcp" (str "db:3306"),
          .Printf "connected to %s (2 of 2)\n" [str "db:3306"],
          .Go .localConn .remoteConn, .Go .remoteConn .localConn,
          .Copy .localConn .remoteConn, .Copy .remoteConn .localConn] ∧
    List.count (Event.Close .localConn)
      [.Dial "unix" (str "/tmp/agent"), .Dial "tcp" (str "jump:22"),
          .Printf "connected to %s (1 of 2)\n" [str "jump:22"], .Dial "tcp" (str "db:3306"),
          .Printf "connected to %s (2 of 2)\n" [str "db:3306"],
          .Go .localConn .remoteConn, .Go .remoteConn .localConn,
          .Copy .localConn .remoteConn, .Copy .remoteConn .localConn] = 0 ∧
    List.count (Event.Close .remoteConn)
      [.Dial "unix" (str "/tmp/agent"), .Dial "tcp" (str "jump:22"),
          .Printf "connected to %s (1 of 2)\n" [str "jump:22"], .Dial "tcp" (str "db:3306"),
          .Printf "connected to %s (2 of 2)\n" [str "db:3306"],
          .Go .localConn .remoteConn, .Go .remoteConn .localConn,
          .Copy .localConn .remoteConn, .Copy .remoteConn .localConn] = 0 :=
  ⟨rfl, rfl, by simp, by simp⟩

/-- C9, amended. In both entry points the Forwarder closes neither connection: whatever the
outside world answers, no `Close` is among the actions of `forward` or of `copyConn`. When
`createSshConfig` and both dials succeed and a logger is attached, `forward` performs, in both
entry points, exactly the two dials with their log entries and then the two statements
`go copyConn(...)`, and returns. -/
theorem forward_never_closes (tunnel : SSHTunnel) (env : Env) (writer reader c : Conn)
    (copyErr : Option GoString) :
    Event.Close c ∉ (SSHTunnel.forward tunnel env).1 ∧
    Event.Close c ∉ (SSHTunnel.copyConn tunnel writer reader copyErr).1 ∧
    Event.Close c ∉ (sshTunnel.forward tunnel env).1 ∧
    Event.Close c ∉ (sshTunnel.copyConn tunnel writer reader copyErr).1 ∧
    (env.userCurrent = none ∧ env.knownhostsNew = none ∧ env.agentDial = none ∧
        env.sshDial = none ∧ env.remoteDial = none ∧ tunnel.Log = true →
      SSHTunnel.forward tunnel env
        = ([.Dial "unix" env.authSock, .Dial "tcp" tunnel.Server.String,
            .Printf "connected to %s (1 of 2)\n" [tunnel.Server.String],
            .Dial "tcp" tunnel.Remote.String,
            .Printf "connected to %s (2 of 2)\n" [tunnel.Remote.String],
            .Go .localConn .remoteConn, .Go .remoteConn .localConn], .returned ()) ∧
      sshTunnel.forward tunnel env
        = ([.Dial "unix" env.authSock, .Dial "tcp" tunnel.Server.String,
            .Printf "connected to %s (1 of 2)\n" [tunnel.Server.String],
            .Dial "tcp" tunnel.Remote.String,
            .Printf "connected to %s (2 of 2)\n" [tunnel.Remote.String],
            .Go .localConn .remoteConn, .Go .remoteConn .localConn], .returned ())) := by
  obtain ⟨uc, kh, sock, ad, sd, rd⟩ := env
  obtain ⟨l, sv, rm, lg⟩ := tunnel
  refine ⟨?_, ?_, ?_, ?_, ?_⟩
  · cases uc <;> cases kh <;> cases ad <;> cases sd <;> cases rd <;> cases lg <;>
      simp [SSHTunnel.forward, SSHTunnel.createSshConfig, SSHTunnel.logf, Logger.Printf, emit,
        stdFatalf, bind, Run.bind, pure]
  · cases copyErr <;> cases lg <;>
      simp [SSHTunnel.copyConn, SSHTunnel.logf, Logger.Printf, emit, bind, Run.bind, pure]
  · cases uc <;> cases kh <;> cases ad <;> cases sd <;> cases rd <;> cases lg <;>
      simp [sshTunnel.forward, sshTunnel.createSshConfig, Logger.Printf, Logger.Fatalf, emit,
        bind, Run.bind, pure]
  · cases copyErr <;> cases lg <;>
      simp [sshTunnel.copyConn, Logger.Fatalf, emit, bind, Run.bind, pure]
  · rintro ⟨h1, h2, h3, h4, h5, h6⟩
    simp only at h1 h2 h3 h4 h5 h6
    subst h1 h2 h3 h4 h5 h6
    simp [SSHTunnel.forward, SSHTunnel.createSshConfig, SSHTunnel.logf, sshTunnel.forward,
      sshTunnel.createSshConfig, Logger.Printf, emit, bind, Run.bind, pure]

set_option maxRecDepth 4000 in
theorem forward_never_closes_witness :
    Event.Close .localConn ∉
      (SSHTunnel.forward { NewSSHTunnel 64 (str "u@jump") (str "db:3306") 0 with Log := true }
        { userCurrent := none, knownhostsNew := none, authSock := str "/tmp/agent",
          agentDial := none, sshDial := none, remoteDial := none }).1 ∧
    sshTunnel.forward { NewSSHTunnel 64 (str "u@jump") (str "db:3306") 0 with Log := true }
        { userCurrent := none, knownhostsNew := none, authSock := str "/tmp/agent",
          agentDial := none, sshDial := none, remoteDial := none }
      = ([.Dial "unix" (str "/tmp/agent"), .Dial "tcp" (str "jump:22"),
          .Printf "connected to %s (1 of 2)\n" [str "jump:22"], .Dial "tcp" (str "db:3306"),
          .Printf "connected to %s (2 of 2)\n" [str "db:3306"],
          .Go .localConn .remoteConn, .Go .remoteConn .localConn], .returned ()) :=
  ⟨(forward_never_closes _ _ .localConn .remoteConn .localConn none).1,
    ((forward_never_closes
      { NewSSHTunnel 64 (str "u@jump") (str "db:3306") 0 with Log := true }
      { userCurrent := none, knownhostsNew := none, authSock := str "/tmp/agent",
        agentDial := none, sshDial := none, remoteDial := none }
      .localConn .remoteConn .localConn none).2.2.2.2 ⟨rfl, rfl, rfl, rfl, rfl, rfl⟩).2⟩

end SqlRun
